import Mathlib

/-!
Shallow embedding of the extension management service
(`src/vs/platform/extensionManagement/node/extensionManagementService.ts`).

Pure data and control flow are translated into Lean functions; asynchronous
read-modify-write access to the `.obsolete` index file (serialized through
`Limiter(1)`) is modelled as explicit state passing over an `ObsoleteFile`
state, with a queue of operations executed strictly in arrival order, which
is exactly the semantics the single-slot limiter enforces.  Filesystem and
event side effects of install/uninstall pipelines are modelled as explicit
traces of steps.
-/

namespace ExtensionManagement

/-- Semantic version `major.minor.patch`, the core of the `semver` versions
compared by `semver.rcompare` in the source. -/
structure SemVer where
  major : Nat
  minor : Nat
  patch : Nat
deriving DecidableEq, Repr

/-- Three-way comparison on naturals, returning an integer like a JS
comparator: negative, zero or positive. -/
def natCompareInt (a b : Nat) : Int :=
  if a < b then -1 else if b < a then 1 else 0

/-- `semver.compare a b`: lexicographic three-way comparison of versions. -/
def semverCompare (a b : SemVer) : Int :=
  if a.major ≠ b.major then natCompareInt a.major b.major
  else if a.minor ≠ b.minor then natCompareInt a.minor b.minor
  else natCompareInt a.patch b.patch

/-- `semver.rcompare a b`: the reverse comparison, `compare b a`; used as a
JS sort comparator it sorts versions in descending order. -/
def semverRcompare (a b : SemVer) : Int :=
  semverCompare b a

/-- Decimal rendering of a version, `major.minor.patch`. -/
def SemVer.str (v : SemVer) : String :=
  Nat.repr v.major ++ "." ++ Nat.repr v.minor ++ "." ++ Nat.repr v.patch

/-- Extension manifest fields the service reads (`package.json`). -/
structure Manifest where
  name : String
  publisher : String
  version : SemVer
  displayName : Option String
  extensionDependencies : List String
deriving DecidableEq, Repr

/-- `manifest.displayName || manifest.name`, the human-readable name used in
messages. -/
def dispName (m : Manifest) : String :=
  m.displayName.getD m.name

/-- A locally installed extension record (`ILocalExtension`): `id` is the
directory-name local identifier, `galleryId` is
`getGalleryExtensionIdFromLocal(this)` (the canonical registry identifier
recovered from the local identifier). -/
structure LocalExtension where
  id : String
  galleryId : String
  manifest : Manifest
deriving DecidableEq, Repr

/-- A registry (gallery) extension record, with the fields the service
consumes (`IGalleryExtension`). -/
structure GalleryExtension where
  uuid : String
  publisher : String
  name : String
  version : SemVer
deriving DecidableEq, Repr

/-- Modelled from the spec: `getLocalExtensionIdFromManifest` from
`extensionManagementUtil` (not under `src/`) — deterministic local identifier
derived from publisher+name+version. -/
def getLocalExtensionIdFromManifest (m : Manifest) : String :=
  m.publisher ++ "." ++ m.name ++ "-" ++ m.version.str

/-- Modelled from the spec: `getLocalExtensionIdFromGallery` from
`extensionManagementUtil` (not under `src/`) — the same derivation applied to
a gallery record at a given version. -/
def getLocalExtensionIdFromGallery (g : GalleryExtension) (v : SemVer) : String :=
  g.publisher ++ "." ++ g.name ++ "-" ++ v.str

/-! ## The Obsolete Index

The `.obsolete` file holds a flat JSON object of identifier → boolean
entries.  `withObsoleteExtensions` reads the file (`ENOENT` is replaced by
`{}`, a JSON parse failure is caught and replaced by `{}`), applies the
mutation/read callback, and persists: an empty mapping deletes the file
(`rimraf`), a non-empty one is written back. -/

/-- The parsed JSON object: an association list of identifier → boolean,
in JS property order (existing keys keep their position, new keys are
appended). -/
abbrev ObsoleteMap := List (String × Bool)

/-- Truthiness test `!!obsolete[id]`: the value of the first binding of
`id`, or `false` when absent. -/
def lookupFlag : ObsoleteMap → String → Bool
  | [], _ => false
  | kv :: rest, id => if kv.1 == id then kv.2 else lookupFlag rest id

/-- `assign(obsolete, { [id]: true })`: JS object property assignment —
an existing key keeps its position and gets value `true`, a new key is
appended at the end. -/
def assignTrue : ObsoleteMap → String → ObsoleteMap
  | [], id => [(id, true)]
  | kv :: rest, id => if kv.1 == id then (id, true) :: rest else kv :: assignTrue rest id

/-- `delete obsolete[id]`: remove the binding of `id`. -/
def deleteKey : ObsoleteMap → String → ObsoleteMap
  | [], _ => []
  | kv :: rest, id => if kv.1 == id then deleteKey rest id else kv :: deleteKey rest id

/-- State of the `.obsolete` backing file on disk: absent, present with
content that fails `JSON.parse`, or present with a valid JSON object. -/
inductive ObsoleteFile
  | absent
  | invalid
  | valid (m : ObsoleteMap)
deriving DecidableEq, Repr

/-- The read half of `withObsoleteExtensions`: `ENOENT` yields the text `{}`
(hence the empty mapping) and a caught `JSON.parse` failure yields `{}`. -/
def readObsoleteFile : ObsoleteFile → ObsoleteMap
  | .absent => []
  | .invalid => []
  | .valid m => m

/-- The persist half of `withObsoleteExtensions`:
`Object.keys(obsolete).length === 0` deletes the file, otherwise the
mapping is serialized and written. -/
def writeObsoleteFile (m : ObsoleteMap) : ObsoleteFile :=
  if m.isEmpty then .absent else .valid m

/-- `withObsoleteExtensions(fn)`: one serialized read-modify-persist access.
`fn` returns the mutated mapping together with its JS return value. -/
def withObsoleteExtensions {α : Type} (fn : ObsoleteMap → ObsoleteMap × α)
    (st : ObsoleteFile) : ObsoleteFile × α :=
  let m := readObsoleteFile st
  let r := fn m
  (writeObsoleteFile r.1, r.2)

/-- `setObsolete(id)`: mark an identifier obsolete. -/
def setObsolete (id : String) (st : ObsoleteFile) : ObsoleteFile :=
  (withObsoleteExtensions (fun m => (assignTrue m id, ())) st).1

/-- `unsetObsolete(id)`: unmark an identifier. -/
def unsetObsolete (id : String) (st : ObsoleteFile) : ObsoleteFile :=
  (withObsoleteExtensions (fun m => (deleteKey m id, ())) st).1

/-- `filterObsolete(...ids)`: keep the identifiers whose entry is truthy. -/
def filterObsolete (ids : List String) (st : ObsoleteFile) : ObsoleteFile × List String :=
  withObsoleteExtensions (fun m => (m, ids.filter (fun id => lookupFlag m id))) st

/-- `isObsolete(id)`: whether filtering the single identifier keeps it. -/
def isObsolete (id : String) (st : ObsoleteFile) : ObsoleteFile × Bool :=
  let r := filterObsolete [id] st
  (r.1, r.2.length == 1)

/-- `getObsoleteExtensions()`: read the whole mapping. -/
def getObsoleteExtensions (st : ObsoleteFile) : ObsoleteFile × ObsoleteMap :=
  withObsoleteExtensions (fun m => (m, m)) st

/-- One queued access to the Obsolete Index: mark, unmark, or read. -/
inductive ObsoleteOp
  | mark (id : String)
  | unmark (id : String)
  | read
deriving DecidableEq, Repr

/-- Execute one queued access on the file state. -/
def applyObsoleteOp (st : ObsoleteFile) : ObsoleteOp → ObsoleteFile
  | .mark id => setObsolete id st
  | .unmark id => unsetObsolete id st
  | .read => (getObsoleteExtensions st).1

/-- Execute a queue of accesses strictly in arrival order — the semantics
enforced by `obsoleteFileLimiter = new Limiter(1)`: each read-modify-persist
cycle completes before the next begins. -/
def runObsoleteOps (st : ObsoleteFile) (ops : List ObsoleteOp) : ObsoleteFile :=
  ops.foldl applyObsoleteOp st

/-! ## Manifest reader error policy

`parseManifest` rejects a failed `JSON.parse` of `package.json` with an
`InvalidManifest` error; `readManifest` reads the optional
`package.nls.json` sidecar, substituting the text `{}` for `ENOENT` but letting a
`JSON.parse` failure (and any other read error) propagate.  Each reader is
modelled on the *outcome* of the external `JSON.parse`: `none` stands for a
parse failure. -/

/-- Gallery metadata carried in the reserved `__metadata` manifest field. -/
structure GalleryMetadata where
  id : String
  publisherId : String
  publisherDisplayName : String
deriving DecidableEq, Repr

/-- The successfully parsed content of a `package.json`: the manifest plus
the optional reserved `__metadata` field. -/
structure ParsedManifestJson where
  manifest : Manifest
  metadataField : Option GalleryMetadata
deriving DecidableEq, Repr

/-- `parseManifest(raw)`: a `JSON.parse` failure (outcome `none`) is turned
into the `InvalidManifest` error; otherwise `__metadata` is split off
(`null` when absent) and the manifest returned. -/
def parseManifest (parsed : Option ParsedManifestJson) :
    Except String (Manifest × Option GalleryMetadata) :=
  match parsed with
  | none => .error "Extension invalid: package.json is not a JSON file."
  | some j => .ok (j.manifest, j.metadataField)

/-- A translation overlay parsed from `package.nls.json`. -/
abbrev Translations := List (String × String)

/-- Outcome of reading and `JSON.parse`-ing an optional file: the file may
be missing (`ENOENT`), the read may fail otherwise, or the content parses
(`none` = `JSON.parse` failure). -/
inductive FileReadOutcome (α : Type)
  | enoent
  | readError (msg : String)
  | content (parsed : Option α)
deriving DecidableEq, Repr

/-- The translations step of `readManifest`: `ENOENT` is replaced by `{}`
(the empty overlay), any other read error propagates, and a `JSON.parse`
failure propagates as an error — there is no silent fallback here. -/
def readTranslations : FileReadOutcome Translations → Except String Translations
  | .enoent => .ok []
  | .readError msg => .error msg
  | .content none => .error "SyntaxError: unexpected token in JSON"
  | .content (some t) => .ok t

/-! ## Install from a local package (`install(zipPath)`)

The pipeline validates the package, derives the local identifier from the
manifest, consults the Obsolete Index, and either fails with the
restart-required error (before firing any event and before touching the
extensions directory) or fires the install-started event and runs
`installExtension` (rimraf old directory → extract → merge metadata into the
on-disk manifest), firing the did-install event with the result. -/

/-- Error outcomes of the local install pipeline. -/
inductive InstallError
  | restartRequired (displayName : String)
  | localError
deriving DecidableEq, Repr

/-- Observable steps of the local install pipeline: lifecycle events and
filesystem mutations of the extensions directory. -/
inductive InstallStep
  | fireInstallStarted (id : String)
  | rimrafExtensionDir (id : String)
  | extractZip (id : String)
  | mergeManifestMetadata (id : String)
  | fireDidInstallSuccess (id : String)
  | fireDidInstallError (id : String)
deriving DecidableEq, Repr

/-- Which steps mutate the filesystem. -/
def InstallStep.isFsMutation : InstallStep → Bool
  | .rimrafExtensionDir _ => true
  | .extractZip _ => true
  | .mergeManifestMetadata _ => true
  | _ => false

/-- `installExtension`: remove any existing directory, extract the package,
then merge the gallery metadata back into the extracted manifest.  The
extraction/read phase may fail (`extractOk = false`), in which case the
metadata merge never happens. -/
def installExtension (id : String) (extractOk : Bool) :
    List InstallStep × Except InstallError Unit :=
  if extractOk then
    ([.rimrafExtensionDir id, .extractZip id, .mergeManifestMetadata id], .ok ())
  else
    ([.rimrafExtensionDir id, .extractZip id], .error .localError)

/-- `install(zipPath)` after successful validation of the package whose
manifest is `m`: check the Obsolete Index first; a marked identifier fails
with the restart-required error with no event and no filesystem step;
otherwise fire install-started, run `installExtension`, and fire the
did-install event with the outcome. -/
def install (st : ObsoleteFile) (m : Manifest) (extractOk : Bool) :
    ObsoleteFile × List InstallStep × Except InstallError Unit :=
  let id := getLocalExtensionIdFromManifest m
  let c := isObsolete id st
  if c.2 then
    (c.1, [], .error (.restartRequired (dispName m)))
  else
    let r := installExtension id extractOk
    match r.2 with
    | .ok _ =>
      (c.1, .fireInstallStarted id :: r.1 ++ [.fireDidInstallSuccess id], .ok ())
    | .error e =>
      (c.1, .fireInstallStarted id :: r.1 ++ [.fireDidInstallError id], .error e)

/-! ## Install from the registry -/

/-- Error codes reported through the did-install lifecycle event
(`ErrorCode` in `extensionManagement.ts`). -/
inductive ErrorCode
  | obsolete
  | gallery
  | localFs
deriving DecidableEq, Repr

/-- `filterDependenciesToInstall`: drop a dependency when it is the
requested extension itself (same `uuid`) or when some installed local
extension already has its derived local identifier. -/
def filterDependenciesToInstall (extension : GalleryExtension)
    (dependencies : List GalleryExtension) (installed : List LocalExtension) :
    List GalleryExtension :=
  dependencies.filter fun d =>
    if extension.uuid == d.uuid then false
    else installed.all fun l => l.id != getLocalExtensionIdFromGallery d d.version

/-- `collectExtensionsToInstall`: the compatible version of the target
(`loadCompatibleVersion`) followed by the filtered dependency set
(`getAllDependencies` filtered against the installed set). -/
def collectExtensionsToInstall (extension extensionToInstall : GalleryExtension)
    (allDependencies : List GalleryExtension) (installed : List LocalExtension) :
    List GalleryExtension :=
  extensionToInstall :: filterDependenciesToInstall extension allDependencies installed

/-- Observable steps of the failure handling in the registry batch install:
uninstall calls issued by the rollback and did-install error events fired
when reporting the failure. -/
inductive BatchStep
  | uninstallExtensionCall (id : String)
  | fireDidInstallErrorFor (id : String)
deriving DecidableEq, Repr

/-- `getGalleryExtensionForLocalExtension`: the first gallery record of the
batch whose derived local identifier equals the identifier of the local record,
or `none`. -/
def getGalleryExtensionForLocalExtension (galleryExtensions : List GalleryExtension)
    (localExtension : LocalExtension) : Option GalleryExtension :=
  (galleryExtensions.filter
    (fun g => getLocalExtensionIdFromGallery g g.version == localExtension.id)).head?

/-- `filterOutUninstalled`: the currently installed local extensions that
correspond to a member of the gallery batch — i.e. the batch members that
were actually installed. -/
def filterOutUninstalled (extensions : List GalleryExtension)
    (installed : List LocalExtension) : List LocalExtension :=
  installed.filter fun l => (getGalleryExtensionForLocalExtension extensions l).isSome

/-- `.then(() => null, () => null)`: swallow any failure. -/
def swallow (_r : Except Unit Unit) : Except Unit Unit := .ok ()

/-- `rollback(extensions)`: uninstall every batch member found installed;
the joined outcome — failed or not — is swallowed.  `installed` is the
result of `getInstalled()` at rollback time, `uninstallOk` the per-identifier
outcome of `uninstallExtension`. -/
def rollback (extensions : List GalleryExtension) (installed : List LocalExtension)
    (uninstallOk : String → Bool) : List BatchStep × Except Unit Unit :=
  let toUninstall := filterOutUninstalled extensions installed
  let joined : Except Unit Unit :=
    if toUninstall.all (fun l => uninstallOk l.id) then .ok () else .error ()
  (toUninstall.map (fun l => .uninstallExtensionCall l.id), swallow joined)

/-- `downloadAndInstallExtensions`: download+validate every batch member,
then install every member.  A download failure reports a gallery error
against every member; an install failure first rolls back every member that
was actually installed (rollback failures swallowed) and then reports a
local error against every member; the aggregate error is returned after the
reports.  `installedAtRollback` is the installed set observed by the
rollback through `getInstalled()`. -/
def downloadAndInstallExtensions (extensions : List GalleryExtension)
    (downloadOk installOk : GalleryExtension → Bool)
    (installedAtRollback : List LocalExtension) (uninstallOk : String → Bool) :
    List BatchStep × Except ErrorCode (List String) :=
  if extensions.all downloadOk then
    if extensions.all installOk then
      ([], .ok (extensions.map (fun g => getLocalExtensionIdFromGallery g g.version)))
    else
      let rb := rollback extensions installedAtRollback uninstallOk
      (rb.1 ++ extensions.map
        (fun g => .fireDidInstallErrorFor (getLocalExtensionIdFromGallery g g.version)),
       .error .localFs)
  else
    (extensions.map
      (fun g => .fireDidInstallErrorFor (getLocalExtensionIdFromGallery g g.version)),
     .error .gallery)

/-! ## Error aggregation (`joinErrors`) -/

/-- A JS `Error` object, reduced to its message. -/
structure JsError where
  message : String
deriving DecidableEq, Repr

/-- An element of the accumulated error list: `Error | string`. -/
abbrev ErrorOrString := JsError ⊕ String

/-- The message carried by an accumulated error. -/
def errorOrStringMessage : ErrorOrString → String
  | .inl e => e.message
  | .inr s => s

/-- The reduce callback of `joinErrors`: append the next message to the
accumulated one, preceded by a comma whenever the accumulated message is
non-empty. -/
def joinStep (prev : JsError) (curr : ErrorOrString) : JsError :=
  { message := prev.message ++ (if prev.message != "" then "," else "")
      ++ errorOrStringMessage curr }

/-- `joinErrors(errors)`: a single error passes through (an `Error` object
unchanged, a plain string wrapped); otherwise the list is reduced with
`joinStep` starting from a fresh error with empty message. -/
def joinErrors (errors : List ErrorOrString) : JsError :=
  match errors with
  | [e] =>
    match e with
    | .inl err => err
    | .inr s => { message := s }
  | _ => errors.foldl joinStep { message := "" }

/-! ## Uninstall dependency analysis -/

/-- `getDependents(extension, installed)`: the installed extensions whose
declared dependency list contains the canonical identifier of the target. -/
def getDependents (extension : LocalExtension) (installed : List LocalExtension) :
    List LocalExtension :=
  installed.filter fun e => e.manifest.extensionDependencies.contains extension.galleryId

/-- The loop of `filterDependents`: iterate the index `i` over
`dependencies` (`rem` is the not-yet-visited suffix, so its head is
`dependencies[i]`), and whenever the `i`-th dependency has an external
dependent, splice it out of `result` at index
`i - (dependenciesLength - result.length)` — the position the element
currently occupies after the removals made so far. -/
def spliceFilterLoop (dependenciesLength : Nat)
    (hasExternalDependent : LocalExtension → Bool) :
    List LocalExtension → Nat → List LocalExtension → List LocalExtension
  | [], _, result => result
  | dep :: rem, i, result =>
    spliceFilterLoop dependenciesLength hasExternalDependent rem (i + 1)
      (if hasExternalDependent dep then
        result.eraseIdx (i - (dependenciesLength - result.length))
      else result)

/-- `filterDependents(extension, dependencies, installed)`: restrict
`installed` to extensions other than the target that declare dependencies,
then drop from the dependency batch every member that has a dependent
outside the batch. -/
def filterDependents (extension : LocalExtension)
    (dependencies installed : List LocalExtension) : List LocalExtension :=
  let installed2 := installed.filter
    fun i => i != extension && !i.manifest.extensionDependencies.isEmpty
  spliceFilterLoop dependencies.length
    (fun dep => !((getDependents dep installed2).filter
      (fun e => !dependencies.contains e)).isEmpty)
    dependencies 0 dependencies

/-- `getDependentsErrorMessage`: name one dependent, two dependents, or two
dependents plus an "and others" suffix.  The source indexes
`dependents[0]`/`dependents[1]` unconditionally, so it is only called with a
non-empty list; the empty case is given a dummy value here. -/
def getDependentsErrorMessage (extension : LocalExtension)
    (dependents : List LocalExtension) : String :=
  match dependents with
  | [d0] =>
    "Cannot uninstall extension \x27" ++ dispName extension.manifest
      ++ "\x27. Extension \x27" ++ dispName d0.manifest ++ "\x27 depends on this."
  | [d0, d1] =>
    "Cannot uninstall extension \x27" ++ dispName extension.manifest
      ++ "\x27. Extensions \x27" ++ dispName d0.manifest ++ "\x27 and \x27"
      ++ dispName d1.manifest ++ "\x27 depend on this."
  | d0 :: d1 :: _ =>
    "Cannot uninstall extension \x27" ++ dispName extension.manifest
      ++ "\x27. Extensions \x27" ++ dispName d0.manifest ++ "\x27, \x27"
      ++ dispName d1.manifest ++ "\x27 and others depend on this."
  | [] => ""

/-- The blocking dependents computed by `uninstallWithDependencies`: the
dependents of the target that are neither the target itself nor a member of
the (safety-filtered) dependency removal set. -/
def blockingDependents (extension : LocalExtension)
    (dependenciesToUninstall installed : List LocalExtension) : List LocalExtension :=
  (getDependents extension installed).filter
    fun dependent => dependent != extension && !dependenciesToUninstall.contains dependent

/-- `uninstallWithDependencies`: apply the dependent-safety filter to the
dependency batch, abort with the dependents error when blocking dependents
remain, otherwise uninstall the target and every surviving batch member
(returned here as the list of removed local identifiers). -/
def uninstallWithDependencies (extension : LocalExtension)
    (dependencies installed : List LocalExtension) : Except String (List String) :=
  let dependenciesToUninstall := filterDependents extension dependencies installed
  let dependents := blockingDependents extension dependenciesToUninstall installed
  if !dependents.isEmpty then
    .error (getDependentsErrorMessage extension dependents)
  else
    .ok (extension.id :: dependenciesToUninstall.map (fun d => d.id))

/-! ## Scanning user extensions -/

/-- Append an element to the group of its key, or start a new group at the
end — the behaviour of `groupBy` from `vs/base/common/collections` on a JS
object keyed by non-numeric strings. -/
def insertGrouped (key : String) (x : LocalExtension) :
    List (String × List LocalExtension) → List (String × List LocalExtension)
  | [] => [(key, [x])]
  | g :: gs => if g.1 == key then (g.1, g.2 ++ [x]) :: gs else g :: insertGrouped key x gs

/-- `groupBy(extensions, p => getGalleryExtensionIdFromLocal(p))` followed by
`values(...)`, keeping the key with each group. -/
def groupByGalleryId (extensions : List LocalExtension) :
    List (String × List LocalExtension) :=
  extensions.foldl (fun acc p => insertGrouped p.galleryId p acc) []

/-- The sort relation of `p.sort((a, b) => semver.rcompare(a.manifest.version,
b.manifest.version))`: `a` precedes `b` when the reverse comparison is
non-positive, i.e. versions in descending order. -/
def versionDescending (a b : LocalExtension) : Prop :=
  semverRcompare a.manifest.version b.manifest.version ≤ 0

instance : DecidableRel versionDescending := fun a b =>
  inferInstanceAs (Decidable (semverRcompare a.manifest.version b.manifest.version ≤ 0))

/-- `scanUserExtensions` (post-processing step): group the scanned records by
canonical identifier and keep, per group, the first record after sorting by
reverse version comparison — the highest version. -/
def scanUserExtensions (extensions : List LocalExtension) : List LocalExtension :=
  (groupByGalleryId extensions).filterMap
    (fun g => (g.2.insertionSort versionDescending).head?)

/-! ## Obsolete Index lemmas -/

theorem lookupFlag_assignTrue (m : ObsoleteMap) (i j : String) :
    lookupFlag (assignTrue m j) i = if i = j then true else lookupFlag m i := by
  induction m with
  | nil =>
    by_cases h : i = j
    · subst h; simp [assignTrue, lookupFlag]
    · simp [assignTrue, lookupFlag, beq_iff_eq, h, Ne.symm h]
  | cons kv rest ih =>
    by_cases hk : kv.1 = j
    · by_cases h : i = j
      · subst h; simp [assignTrue, lookupFlag, hk, beq_iff_eq]
      · have hki : kv.1 ≠ i := by rw [hk]; exact Ne.symm h
        simp [assignTrue, lookupFlag, hk, beq_iff_eq, h, Ne.symm h, hki]
    · by_cases h2 : kv.1 = i
      · have hij : i ≠ j := fun he => hk (h2.trans he)
        simp [assignTrue, lookupFlag, hk, h2, hij, beq_iff_eq]
      · simp [assignTrue, lookupFlag, hk, h2, beq_iff_eq, ih]

theorem lookupFlag_deleteKey (m : ObsoleteMap) (i j : String) :
    lookupFlag (deleteKey m j) i = if i = j then false else lookupFlag m i := by
  induction m with
  | nil => simp [deleteKey, lookupFlag]
  | cons kv rest ih =>
    by_cases hk : kv.1 = j
    · by_cases h : i = j
      · subst h; simp [deleteKey, lookupFlag, hk, beq_iff_eq, ih]
      · have hki : kv.1 ≠ i := by rw [hk]; exact Ne.symm h
        simp [deleteKey, lookupFlag, hk, beq_iff_eq, h, Ne.symm h, hki, ih]
    · by_cases h2 : kv.1 = i
      · have hij : i ≠ j := fun he => hk (h2.trans he)
        simp [deleteKey, lookupFlag, hk, h2, hij, beq_iff_eq]
      · simp [deleteKey, lookupFlag, hk, h2, beq_iff_eq, ih]

theorem readObsoleteFile_writeObsoleteFile (m : ObsoleteMap) :
    readObsoleteFile (writeObsoleteFile m) = m := by
  unfold writeObsoleteFile
  split
  · next h =>
    simp only [List.isEmpty_iff] at h
    simp [readObsoleteFile, h]
  · rfl

theorem writeObsoleteFile_eq_absent_iff (m : ObsoleteMap) :
    writeObsoleteFile m = .absent ↔ m = [] := by
  unfold writeObsoleteFile
  split
  · next h =>
    simp only [List.isEmpty_iff] at h
    simp [h]
  · next h =>
    simp only [List.isEmpty_iff] at h
    simp [h]

theorem readObsoleteFile_setObsolete (st : ObsoleteFile) (i j : String) :
    lookupFlag (readObsoleteFile (setObsolete j st)) i =
      if i = j then true else lookupFlag (readObsoleteFile st) i := by
  unfold setObsolete withObsoleteExtensions
  simp [readObsoleteFile_writeObsoleteFile, lookupFlag_assignTrue]

theorem readObsoleteFile_unsetObsolete (st : ObsoleteFile) (i j : String) :
    lookupFlag (readObsoleteFile (unsetObsolete j st)) i =
      if i = j then false else lookupFlag (readObsoleteFile st) i := by
  unfold unsetObsolete withObsoleteExtensions
  simp [readObsoleteFile_writeObsoleteFile, lookupFlag_deleteKey]

theorem isObsolete_spec (id : String) (st : ObsoleteFile) :
    (isObsolete id st).2 = lookupFlag (readObsoleteFile st) id := by
  unfold isObsolete filterObsolete withObsoleteExtensions
  cases h : lookupFlag (readObsoleteFile st) id <;> simp [h]

theorem marks_preserve (ids : List String) (st : ObsoleteFile) (i : String)
    (h : lookupFlag (readObsoleteFile st) i = true ∨ i ∈ ids) :
    lookupFlag (readObsoleteFile (runObsoleteOps st (ids.map ObsoleteOp.mark))) i = true := by
  induction ids generalizing st with
  | nil =>
    rcases h with h | h
    · simpa [runObsoleteOps] using h
    · simp at h
  | cons a rest ih =>
    have hstep : runObsoleteOps st ((a :: rest).map ObsoleteOp.mark) =
        runObsoleteOps (setObsolete a st) (rest.map ObsoleteOp.mark) := rfl
    rw [hstep]
    apply ih
    by_cases hia : i = a
    · left
      rw [readObsoleteFile_setObsolete, if_pos hia]
    · rcases h with h | h
      · left
        rw [readObsoleteFile_setObsolete, if_neg hia]
        exact h
      · right
        rcases List.mem_cons.mp h with h | h
        · exact absurd h hia
        · exact h

theorem applyObsoleteOp_absent_iff (st : ObsoleteFile) (op : ObsoleteOp) :
    applyObsoleteOp st op = .absent ↔
      readObsoleteFile (applyObsoleteOp st op) = [] := by
  have key : ∀ m : ObsoleteMap,
      (writeObsoleteFile m = .absent ↔ readObsoleteFile (writeObsoleteFile m) = []) := by
    intro m
    rw [readObsoleteFile_writeObsoleteFile, writeObsoleteFile_eq_absent_iff]
  cases op with
  | mark id => exact key _
  | unmark id => exact key _
  | read => exact key _

/-- Claim C1: accesses to the Obsolete Index are serialized through a
single-slot queue, so a queue of N mark operations — in whatever order the
concurrent callers were granted their turns — loses no write: every marked
identifier is present in the persisted mapping afterwards. -/
theorem obsolete_index_marks_all_persist (ids : List String) (st : ObsoleteFile)
    (i : String) (hi : i ∈ ids) :
    lookupFlag (readObsoleteFile (runObsoleteOps st (ids.map ObsoleteOp.mark))) i = true :=
  marks_preserve ids st i (Or.inr hi)

theorem obsolete_index_marks_all_persist_witness :
    lookupFlag (readObsoleteFile (runObsoleteOps ObsoleteFile.absent
      (["a", "b", "c"].map ObsoleteOp.mark))) "b" = true :=
  obsolete_index_marks_all_persist ["a", "b", "c"] ObsoleteFile.absent "b" (by decide)

/-- Claim C7: after an Obsolete Index access completes, the backing file
exists iff the resulting mapping is non-empty; the absence of the file is
read as the empty mapping; and after any non-empty sequence of accesses the
file is absent exactly when the persisted mapping is empty. -/
theorem obsolete_file_exists_iff_nonempty :
    (∀ (α : Type) (fn : ObsoleteMap → ObsoleteMap × α) (st : ObsoleteFile),
      (withObsoleteExtensions fn st).1 = .absent ↔ (fn (readObsoleteFile st)).1 = [])
    ∧ readObsoleteFile .absent = []
    ∧ (∀ (ops : List ObsoleteOp) (st : ObsoleteFile), ops ≠ [] →
        (runObsoleteOps st ops = .absent ↔
          readObsoleteFile (runObsoleteOps st ops) = [])) := by
  refine ⟨fun α fn st => ?_, rfl, fun ops => ?_⟩
  · unfold withObsoleteExtensions
    exact writeObsoleteFile_eq_absent_iff _
  · induction ops with
    | nil => intro st h; exact absurd rfl h
    | cons op rest ih =>
      intro st _
      cases rest with
      | nil => exact applyObsoleteOp_absent_iff st op
      | cons op2 rest2 =>
        have hstep : runObsoleteOps st (op :: op2 :: rest2) =
            runObsoleteOps (applyObsoleteOp st op) (op2 :: rest2) := rfl
        rw [hstep]
        exact ih (applyObsoleteOp st op) (by simp)

theorem obsolete_file_exists_iff_nonempty_witness :
    runObsoleteOps ObsoleteFile.absent [ObsoleteOp.mark "a", ObsoleteOp.unmark "a"] =
        ObsoleteFile.absent ↔
      readObsoleteFile (runObsoleteOps ObsoleteFile.absent
        [ObsoleteOp.mark "a", ObsoleteOp.unmark "a"]) = [] :=
  obsolete_file_exists_iff_nonempty.2.2 [ObsoleteOp.mark "a", ObsoleteOp.unmark "a"]
    ObsoleteFile.absent (by decide)

/-- Claim C10: an Obsolete Index access whose backing file holds content
that fails `JSON.parse` does not fail — the content is treated exactly as
the empty mapping (discarding previously marked entries) — unlike the
manifest reader, where a parse failure becomes the `InvalidManifest`
error, and the translations reader, where it propagates as an error. -/
theorem invalid_obsolete_content_read_as_empty :
    (∀ (α : Type) (fn : ObsoleteMap → ObsoleteMap × α),
        withObsoleteExtensions fn .invalid = withObsoleteExtensions fn (.valid []))
    ∧ readObsoleteFile .invalid = []
    ∧ parseManifest none = .error "Extension invalid: package.json is not a JSON file."
    ∧ readTranslations (.content none) = .error "SyntaxError: unexpected token in JSON" :=
  ⟨fun _ _ => rfl, rfl, rfl, rfl⟩

/-- Claim C2: when the derived identifier is marked in the Obsolete Index,
`install` fails with the restart-required error before emitting any event
and before any filesystem step (the step trace is empty, so in particular no
filesystem mutation and no install-started event occur); after unmarking the
identifier, the same install proceeds: it begins with the install-started
event and can no longer fail with the restart-required error. -/
theorem obsolete_marked_install_fails_before_any_step
    (st : ObsoleteFile) (m : Manifest) (extractOk : Bool)
    (h : lookupFlag (readObsoleteFile st) (getLocalExtensionIdFromManifest m) = true) :
    ((install st m extractOk).2.1 = []
      ∧ (install st m extractOk).2.2 = .error (.restartRequired (dispName m)))
    ∧ ((install (unsetObsolete (getLocalExtensionIdFromManifest m) st) m extractOk).2.1.head? =
          some (.fireInstallStarted (getLocalExtensionIdFromManifest m))
      ∧ ∀ d, (install (unsetObsolete (getLocalExtensionIdFromManifest m) st) m extractOk).2.2 ≠
          .error (.restartRequired d)) := by
  have hobs : (isObsolete (getLocalExtensionIdFromManifest m) st).2 = true := by
    rw [isObsolete_spec]; exact h
  have hunset :
      (isObsolete (getLocalExtensionIdFromManifest m)
        (unsetObsolete (getLocalExtensionIdFromManifest m) st)).2 = false := by
    rw [isObsolete_spec, readObsoleteFile_unsetObsolete, if_pos rfl]
  constructor
  · constructor <;> simp [install, hobs]
  · cases extractOk <;>
      constructor <;>
        simp [install, installExtension, hunset]

theorem obsolete_marked_install_fails_before_any_step_witness :
    ((install (setObsolete "pub.demo-1.0.0" ObsoleteFile.absent)
        { name := "demo", publisher := "pub", version := ⟨1, 0, 0⟩,
          displayName := none, extensionDependencies := [] } true).2.1 = []
      ∧ (install (setObsolete "pub.demo-1.0.0" ObsoleteFile.absent)
          { name := "demo", publisher := "pub", version := ⟨1, 0, 0⟩,
            displayName := none, extensionDependencies := [] } true).2.2 =
          .error (.restartRequired "demo"))
    ∧ ((install (unsetObsolete "pub.demo-1.0.0"
          (setObsolete "pub.demo-1.0.0" ObsoleteFile.absent))
          { name := "demo", publisher := "pub", version := ⟨1, 0, 0⟩,
            displayName := none, extensionDependencies := [] } true).2.1.head? =
          some (.fireInstallStarted "pub.demo-1.0.0")
      ∧ ∀ d, (install (unsetObsolete "pub.demo-1.0.0"
            (setObsolete "pub.demo-1.0.0" ObsoleteFile.absent))
            { name := "demo", publisher := "pub", version := ⟨1, 0, 0⟩,
              displayName := none, extensionDependencies := [] } true).2.2 ≠
          .error (.restartRequired d)) := by
  have h := obsolete_marked_install_fails_before_any_step
    (setObsolete "pub.demo-1.0.0" ObsoleteFile.absent)
    { name := "demo", publisher := "pub", version := ⟨1, 0, 0⟩,
      displayName := none, extensionDependencies := [] } true (by decide)
  exact h

/-- Claim C8: the computed dependency list excludes self-references
(matching the uuid of the requested extension) and dependencies whose derived
local identifier is already installed; every other registry dependency is
kept, and the committed batch is the target followed by the filtered
dependencies. -/
theorem dependencies_to_install_exclude_self_and_installed
    (extension extensionToInstall : GalleryExtension)
    (dependencies : List GalleryExtension) (installed : List LocalExtension) :
    (∀ d ∈ filterDependenciesToInstall extension dependencies installed,
        d ∈ dependencies ∧ d.uuid ≠ extension.uuid ∧
          ∀ l ∈ installed, l.id ≠ getLocalExtensionIdFromGallery d d.version)
    ∧ (∀ d ∈ dependencies, d.uuid ≠ extension.uuid →
        (∀ l ∈ installed, l.id ≠ getLocalExtensionIdFromGallery d d.version) →
        d ∈ filterDependenciesToInstall extension dependencies installed)
    ∧ collectExtensionsToInstall extension extensionToInstall dependencies installed =
        extensionToInstall :: filterDependenciesToInstall extension dependencies installed := by
  have hpred : ∀ d : GalleryExtension,
      ((if extension.uuid == d.uuid then false
        else installed.all fun l => l.id != getLocalExtensionIdFromGallery d d.version) = true)
        ↔ (d.uuid ≠ extension.uuid ∧
            ∀ l ∈ installed, l.id ≠ getLocalExtensionIdFromGallery d d.version) := by
    intro d
    by_cases hu : extension.uuid = d.uuid
    · simp [hu]
    · simp [hu, beq_iff_eq, List.all_eq_true, bne_iff_ne, Ne.symm hu]
  refine ⟨fun d hd => ?_, fun d hd h1 h2 => ?_, rfl⟩
  · have := List.mem_filter.mp hd
    exact ⟨this.1, (hpred d).mp this.2⟩
  · exact List.mem_filter.mpr ⟨hd, (hpred d).mpr ⟨h1, h2⟩⟩

theorem dependencies_to_install_exclude_self_and_installed_witness :
    ({ uuid := "u2", publisher := "p", name := "dep", version := ⟨1, 0, 0⟩ } : GalleryExtension) ∈
      filterDependenciesToInstall
        { uuid := "u1", publisher := "p", name := "main", version := ⟨1, 0, 0⟩ }
        [{ uuid := "u1", publisher := "p", name := "main", version := ⟨1, 0, 0⟩ },
         { uuid := "u2", publisher := "p", name := "dep", version := ⟨1, 0, 0⟩ }]
        [] :=
  ((dependencies_to_install_exclude_self_and_installed
    { uuid := "u1", publisher := "p", name := "main", version := ⟨1, 0, 0⟩ }
    { uuid := "u1", publisher := "p", name := "main", version := ⟨1, 0, 0⟩ }
    [{ uuid := "u1", publisher := "p", name := "main", version := ⟨1, 0, 0⟩ },
     { uuid := "u2", publisher := "p", name := "dep", version := ⟨1, 0, 0⟩ }]
    []).2.1)
    { uuid := "u2", publisher := "p", name := "dep", version := ⟨1, 0, 0⟩ }
    (by decide) (by decide) (by intro l hl; simp at hl)

/-! ## Registry batch install: rollback on failure (C5) -/

theorem uninstallCall_mem_rollback (extensions : List GalleryExtension)
    (installed : List LocalExtension) (uninstallOk : String → Bool)
    (l : LocalExtension) (hl : l ∈ installed)
    (hmatch : ∃ g ∈ extensions, getLocalExtensionIdFromGallery g g.version = l.id) :
    BatchStep.uninstallExtensionCall l.id ∈ (rollback extensions installed uninstallOk).1 := by
  rcases hmatch with ⟨g, hg, hid⟩
  have hfil : g ∈ extensions.filter
      (fun g => getLocalExtensionIdFromGallery g g.version == l.id) :=
    List.mem_filter.mpr ⟨hg, by simp [beq_iff_eq, hid]⟩
  have hsome : (getGalleryExtensionForLocalExtension extensions l).isSome := by
    unfold getGalleryExtensionForLocalExtension
    exact List.head?_isSome.mpr (List.ne_nil_of_mem hfil)
  have hmem : l ∈ filterOutUninstalled extensions installed :=
    List.mem_filter.mpr ⟨hl, hsome⟩
  exact List.mem_map.mpr ⟨l, hmem, rfl⟩

/-- Claim C5: when every download succeeds but some install step fails, the
batch install first rolls back — issuing an uninstall call for every batch
member actually present in the installed set — with per-member rollback
failures swallowed (the outcome is independent of the uninstall outcomes and
the rollback completes with success), then reports the failure against every
batch member, and only then returns the aggregate local error. -/
theorem batch_install_failure_rolls_back_and_reports
    (extensions : List GalleryExtension) (downloadOk installOk : GalleryExtension → Bool)
    (installedAtRollback : List LocalExtension) (uninstallOk : String → Bool)
    (hd : extensions.all downloadOk = true)
    (hi : extensions.all installOk ≠ true) :
    ((downloadAndInstallExtensions extensions downloadOk installOk installedAtRollback
          uninstallOk).1 =
        (rollback extensions installedAtRollback uninstallOk).1 ++
          extensions.map
            (fun g => .fireDidInstallErrorFor (getLocalExtensionIdFromGallery g g.version)))
    ∧ (∀ l ∈ installedAtRollback,
        (∃ g ∈ extensions, getLocalExtensionIdFromGallery g g.version = l.id) →
        BatchStep.uninstallExtensionCall l.id ∈
          (downloadAndInstallExtensions extensions downloadOk installOk installedAtRollback
            uninstallOk).1)
    ∧ (∀ g ∈ extensions,
        BatchStep.fireDidInstallErrorFor (getLocalExtensionIdFromGallery g g.version) ∈
          (downloadAndInstallExtensions extensions downloadOk installOk installedAtRollback
            uninstallOk).1)
    ∧ (downloadAndInstallExtensions extensions downloadOk installOk installedAtRollback
        uninstallOk).2 = .error .localFs
    ∧ (rollback extensions installedAtRollback uninstallOk).2 = .ok ()
    ∧ (∀ u2 : String → Bool,
        downloadAndInstallExtensions extensions downloadOk installOk installedAtRollback u2 =
          downloadAndInstallExtensions extensions downloadOk installOk installedAtRollback
            uninstallOk) := by
  have hi' : extensions.all installOk = false := by
    cases h : extensions.all installOk
    · rfl
    · exact absurd h hi
  have heq : ∀ u : String → Bool,
      downloadAndInstallExtensions extensions downloadOk installOk installedAtRollback u =
        ((rollback extensions installedAtRollback u).1 ++
          extensions.map
            (fun g => .fireDidInstallErrorFor (getLocalExtensionIdFromGallery g g.version)),
         .error .localFs) := by
    intro u
    simp [downloadAndInstallExtensions, hd, hi']
  refine ⟨by rw [heq], fun l hl hm => ?_, fun g hg => ?_, by rw [heq], rfl, fun u2 => ?_⟩
  · rw [heq]
    exact List.mem_append_left _
      (uninstallCall_mem_rollback extensions installedAtRollback uninstallOk l hl hm)
  · rw [heq]
    exact List.mem_append_right _ (List.mem_map.mpr ⟨g, hg, rfl⟩)
  · rw [heq, heq]
    simp [rollback, swallow]

theorem batch_install_failure_rolls_back_and_reports_witness :
    BatchStep.uninstallExtensionCall "p.one-1.0.0" ∈
      (downloadAndInstallExtensions
        [{ uuid := "u1", publisher := "p", name := "one", version := ⟨1, 0, 0⟩ },
         { uuid := "u2", publisher := "p", name := "two", version := ⟨1, 0, 0⟩ },
         { uuid := "u3", publisher := "p", name := "three", version := ⟨1, 0, 0⟩ }]
        (fun _ => true)
        (fun g => g.uuid != "u2")
        [{ id := "p.one-1.0.0", galleryId := "p.one",
           manifest := { name := "one", publisher := "p", version := ⟨1, 0, 0⟩,
                         displayName := none, extensionDependencies := [] } }]
        (fun _ => true)).1 :=
  ((batch_install_failure_rolls_back_and_reports
    [{ uuid := "u1", publisher := "p", name := "one", version := ⟨1, 0, 0⟩ },
     { uuid := "u2", publisher := "p", name := "two", version := ⟨1, 0, 0⟩ },
     { uuid := "u3", publisher := "p", name := "three", version := ⟨1, 0, 0⟩ }]
    (fun _ => true)
    (fun g => g.uuid != "u2")
    [{ id := "p.one-1.0.0", galleryId := "p.one",
       manifest := { name := "one", publisher := "p", version := ⟨1, 0, 0⟩,
                     displayName := none, extensionDependencies := [] } }]
    (fun _ => true) (by decide) (by decide)).2.1)
    { id := "p.one-1.0.0", galleryId := "p.one",
      manifest := { name := "one", publisher := "p", version := ⟨1, 0, 0⟩,
                    displayName := none, extensionDependencies := [] } }
    (by decide)
    ⟨{ uuid := "u1", publisher := "p", name := "one", version := ⟨1, 0, 0⟩ },
      by decide, by decide⟩

/-! ## Error aggregation (C9) -/

theorem intercalateGo_append (s : String) (l : List String) :
    ∀ (pre acc : String),
      String.intercalate.go (pre ++ acc) s l = pre ++ String.intercalate.go acc s l := by
  induction l with
  | nil => intro pre acc; rfl
  | cons x xs ih =>
    intro pre acc
    show String.intercalate.go (pre ++ acc ++ s ++ x) s xs =
      pre ++ String.intercalate.go (acc ++ s ++ x) s xs
    rw [String.append_assoc (pre ++ acc), String.append_assoc pre acc,
      ← String.append_assoc acc, ih]

theorem intercalate_cons_cons (s a b : String) (l : List String) :
    String.intercalate s (a :: b :: l) = a ++ s ++ String.intercalate s (b :: l) := by
  show String.intercalate.go a s (b :: l) = a ++ s ++ String.intercalate.go b s l
  show String.intercalate.go (a ++ s ++ b) s l = a ++ s ++ String.intercalate.go b s l
  rw [String.append_assoc a s b, ← intercalateGo_append]
  rw [← String.append_assoc]

theorem append_comma_ne_empty (a b : String) : a ++ "," ++ b ≠ "" := by
  intro h
  have hlen := congrArg String.length h
  simp only [String.length_append] at hlen
  have hc : (",").length = 1 := rfl
  have he : ("" : String).length = 0 := rfl
  omega

theorem joinFold_message (l : List ErrorOrString) :
    ∀ m : String, m ≠ "" →
      (l.foldl joinStep { message := m }).message =
        String.intercalate "," (m :: l.map errorOrStringMessage) := by
  induction l with
  | nil => intro m _; rfl
  | cons e l ih =>
    intro m hm
    have hbne : (m != "") = true := bne_iff_ne.mpr hm
    have hstep : joinStep { message := m } e =
        { message := m ++ "," ++ errorOrStringMessage e } := by
      simp [joinStep, hbne]
    rw [List.foldl_cons, hstep, ih _ (append_comma_ne_empty m (errorOrStringMessage e)),
      List.map_cons, intercalate_cons_cons]
    exact intercalateGo_append "," (l.map errorOrStringMessage) (m ++ ",")
      (errorOrStringMessage e)

/-- Claim C9 counterexample: for the two errors with messages `"a"` and
`"b"`, the joined message is `"a,b"` — the separator is a bare comma, not
the comma-space the claim states. -/
theorem joinErrors_separator_counterexample :
    (joinErrors [Sum.inl { message := "a" }, Sum.inl { message := "b" }]).message = "a,b"
      ∧ ("a,b" : String) ≠ "a, b" :=
  ⟨rfl, by decide⟩

/-- Claim C9 (amended): a single accumulated error passes through unchanged
(an `Error` keeps its identity, a plain string is wrapped); two or more
errors are merged into a single error whose message is the individual
messages joined by a bare comma `","` (no space) — stated here for lists
whose first message is non-empty, since a leading empty accumulated message
suppresses its separator. -/
theorem joinErrors_merges_messages (errors : List ErrorOrString) :
    (∀ e : JsError, errors = [Sum.inl e] → joinErrors errors = e)
    ∧ (∀ s : String, errors = [Sum.inr s] → joinErrors errors = { message := s })
    ∧ (∀ e0 rest, errors = e0 :: rest → rest ≠ [] → errorOrStringMessage e0 ≠ "" →
        (joinErrors errors).message =
          String.intercalate "," (errors.map errorOrStringMessage)) := by
  refine ⟨fun e he => by rw [he]; rfl, fun s hs => by rw [hs]; rfl, ?_⟩
  intro e0 rest herr hrest hne
  subst herr
  cases rest with
  | nil => exact absurd rfl hrest
  | cons e1 rest2 =>
    have hjoin : joinErrors (e0 :: e1 :: rest2) =
        (e0 :: e1 :: rest2).foldl joinStep { message := "" } := rfl
    have hfirst : joinStep { message := "" } e0 =
        { message := errorOrStringMessage e0 } := by
      simp [joinStep]
    rw [hjoin, List.foldl_cons, hfirst,
      joinFold_message (e1 :: rest2) (errorOrStringMessage e0) hne, List.map_cons]
    rfl

theorem joinErrors_merges_messages_witness :
    (joinErrors [Sum.inl { message := "a" }, Sum.inr "b", Sum.inl { message := "c" }]).message =
      String.intercalate ","
        (([Sum.inl { message := "a" }, Sum.inr "b",
            Sum.inl { message := "c" }] : List ErrorOrString).map errorOrStringMessage) :=
  ((joinErrors_merges_messages
    [Sum.inl { message := "a" }, Sum.inr "b", Sum.inl { message := "c" }]).2.2)
    (Sum.inl { message := "a" }) [Sum.inr "b", Sum.inl { message := "c" }]
    rfl (by decide) (by decide)

/-! ## The dependent-safety filter (C4) -/

theorem eraseIdx_append_cons {α : Type} (l₁ : List α) (x : α) (l₂ : List α) :
    (l₁ ++ x :: l₂).eraseIdx l₁.length = l₁ ++ l₂ := by
  induction l₁ with
  | nil => rfl
  | cons a l ih =>
    show (a :: (l ++ x :: l₂)).eraseIdx (l.length + 1) = a :: (l ++ l₂)
    rw [List.eraseIdx_cons_succ, ih]

theorem spliceFilterLoop_spec (p : LocalExtension → Bool) :
    ∀ (suf pre : List LocalExtension),
      spliceFilterLoop (pre ++ suf).length p suf pre.length
          (pre.filter (fun d => !p d) ++ suf) =
        (pre ++ suf).filter (fun d => !p d) := by
  intro suf
  induction suf with
  | nil =>
    intro pre
    simp [spliceFilterLoop]
  | cons dep suf ih =>
    intro pre
    have hlen : pre.length -
        ((pre ++ dep :: suf).length -
          (pre.filter (fun d => !p d) ++ dep :: suf).length) =
        (pre.filter (fun d => !p d)).length := by
      have hfl := List.length_filter_le (fun d => !p d) pre
      simp only [List.length_append, List.length_cons]
      omega
    have hih := ih (pre ++ [dep])
    rw [List.append_assoc] at hih
    simp only [List.singleton_append, List.length_append, List.length_singleton] at hih
    cases hp : p dep with
    | true =>
      have hfd : (pre ++ [dep]).filter (fun d => !p d) = pre.filter (fun d => !p d) := by
        rw [List.filter_append]
        simp [hp]
      rw [hfd] at hih
      show spliceFilterLoop (pre ++ dep :: suf).length p suf (pre.length + 1)
          (if p dep = true then
            (pre.filter (fun d => !p d) ++ dep :: suf).eraseIdx
              (pre.length -
                ((pre ++ dep :: suf).length -
                  (pre.filter (fun d => !p d) ++ dep :: suf).length))
          else pre.filter (fun d => !p d) ++ dep :: suf) =
        (pre ++ dep :: suf).filter (fun d => !p d)
      rw [if_pos hp, hlen, eraseIdx_append_cons, List.length_append]
      exact hih
    | false =>
      have hfd : (pre ++ [dep]).filter (fun d => !p d) =
          pre.filter (fun d => !p d) ++ [dep] := by
        rw [List.filter_append]
        simp [hp]
      rw [hfd, List.append_assoc] at hih
      simp only [List.singleton_append] at hih
      show spliceFilterLoop (pre ++ dep :: suf).length p suf (pre.length + 1)
          (if p dep = true then
            (pre.filter (fun d => !p d) ++ dep :: suf).eraseIdx
              (pre.length -
                ((pre ++ dep :: suf).length -
                  (pre.filter (fun d => !p d) ++ dep :: suf).length))
          else pre.filter (fun d => !p d) ++ dep :: suf) =
        (pre ++ dep :: suf).filter (fun d => !p d)
      rw [if_neg (by simp [hp]), List.length_append]
      exact hih

theorem filterDependents_eq_filter (extension : LocalExtension)
    (dependencies installed : List LocalExtension) :
    filterDependents extension dependencies installed =
      dependencies.filter (fun dep =>
        ((getDependents dep (installed.filter fun i =>
            i != extension && !i.manifest.extensionDependencies.isEmpty)).filter
          (fun e => !dependencies.contains e)).isEmpty) := by
  have h := spliceFilterLoop_spec
    (fun dep => !((getDependents dep (installed.filter fun i =>
        i != extension && !i.manifest.extensionDependencies.isEmpty)).filter
      (fun e => !dependencies.contains e)).isEmpty)
    dependencies []
  simp only [List.nil_append, List.filter_nil, List.length_nil] at h
  unfold filterDependents
  rw [h]
  exact List.filter_congr (fun x _ => Bool.not_not _)

/-- Claim C4: the dependent-safety filter removes from the dependency batch
exactly those members having at least one dependent that is neither the
target nor a member of the batch; every other member is kept, in its
original order — the result is literally the sublist of dependencies with no
external dependent. -/
theorem dependent_safety_filter_exact (extension : LocalExtension)
    (dependencies installed : List LocalExtension) :
    filterDependents extension dependencies installed =
      dependencies.filter (fun dep =>
        !(installed.any (fun e => e != extension &&
            e.manifest.extensionDependencies.contains dep.galleryId &&
            !(dependencies.contains e)))) := by
  rw [filterDependents_eq_filter]
  apply List.filter_congr
  intro dep _
  rw [Bool.eq_iff_iff]
  constructor
  · intro hempty
    rw [List.isEmpty_iff, List.filter_eq_nil_iff] at hempty
    rw [Bool.not_eq_true', List.any_eq_false]
    intro e he hP
    simp only [Bool.and_eq_true, bne_iff_ne, Bool.not_eq_true'] at hP
    obtain ⟨⟨hne, hcont⟩, hdc⟩ := hP
    have hgmem : dep.galleryId ∈ e.manifest.extensionDependencies := by
      have := hcont
      simp only [List.contains, List.elem_eq_mem, decide_eq_true_eq] at this
      exact this
    have hdepne : e.manifest.extensionDependencies ≠ [] := List.ne_nil_of_mem hgmem
    have hmem : e ∈ getDependents dep (installed.filter fun i =>
        i != extension && !i.manifest.extensionDependencies.isEmpty) := by
      unfold getDependents
      refine List.mem_filter.mpr ⟨List.mem_filter.mpr ⟨he, ?_⟩, hcont⟩
      simp only [Bool.and_eq_true, bne_iff_ne, Bool.not_eq_true', List.isEmpty_eq_false]
      exact ⟨hne, hdepne⟩
    exact hempty e hmem (by rw [Bool.not_eq_true']; exact hdc)
  · intro hany
    rw [Bool.not_eq_true', List.any_eq_false] at hany
    rw [List.isEmpty_iff, List.filter_eq_nil_iff]
    intro e he hnot
    unfold getDependents at he
    have he1 := List.mem_filter.mp he
    have he2 := List.mem_filter.mp he1.1
    have hinst := he2.1
    have hne : e ≠ extension := by
      have h3 := he2.2
      simp only [Bool.and_eq_true, bne_iff_ne] at h3
      exact h3.1
    have hcont := he1.2
    refine hany e hinst ?_
    simp only [Bool.and_eq_true, bne_iff_ne]
    exact ⟨⟨hne, hcont⟩, hnot⟩

/-- Claim C6: when the blocking-dependents set computed by
`uninstallWithDependencies` is empty, no dependents error is raised and the
removal proceeds; when it is non-empty, the operation aborts with a message
naming exactly the one dependent for one, exactly the two dependents for
two, and the first two dependents plus an "and others" suffix for three or
more. -/
theorem uninstall_dependents_block_message
    (extension : LocalExtension) (dependencies installed : List LocalExtension) :
    (blockingDependents extension (filterDependents extension dependencies installed)
        installed = [] →
      uninstallWithDependencies extension dependencies installed =
        .ok (extension.id ::
          (filterDependents extension dependencies installed).map (fun d => d.id)))
    ∧ (∀ d0, blockingDependents extension
          (filterDependents extension dependencies installed) installed = [d0] →
        uninstallWithDependencies extension dependencies installed =
          .error ("Cannot uninstall extension \x27" ++ dispName extension.manifest
            ++ "\x27. Extension \x27" ++ dispName d0.manifest
            ++ "\x27 depends on this."))
    ∧ (∀ d0 d1, blockingDependents extension
          (filterDependents extension dependencies installed) installed = [d0, d1] →
        uninstallWithDependencies extension dependencies installed =
          .error ("Cannot uninstall extension \x27" ++ dispName extension.manifest
            ++ "\x27. Extensions \x27" ++ dispName d0.manifest ++ "\x27 and \x27"
            ++ dispName d1.manifest ++ "\x27 depend on this."))
    ∧ (∀ d0 d1 d2 rest, blockingDependents extension
          (filterDependents extension dependencies installed) installed =
            d0 :: d1 :: d2 :: rest →
        uninstallWithDependencies extension dependencies installed =
          .error ("Cannot uninstall extension \x27" ++ dispName extension.manifest
            ++ "\x27. Extensions \x27" ++ dispName d0.manifest ++ "\x27, \x27"
            ++ dispName d1.manifest ++ "\x27 and others depend on this.")) := by
  refine ⟨fun h => ?_, fun d0 h => ?_, fun d0 d1 h => ?_, fun d0 d1 d2 rest h => ?_⟩ <;>
    · simp only [uninstallWithDependencies]
      rw [h]
      simp [getDependentsErrorMessage]

theorem uninstall_dependents_block_message_witness :
    uninstallWithDependencies
      { id := "pub.a-1.0.0", galleryId := "pub.a",
        manifest := { name := "a", publisher := "pub", version := ⟨1, 0, 0⟩,
                      displayName := none, extensionDependencies := [] } }
      []
      [{ id := "pub.a-1.0.0", galleryId := "pub.a",
         manifest := { name := "a", publisher := "pub", version := ⟨1, 0, 0⟩,
                       displayName := none, extensionDependencies := [] } },
       { id := "pub.b-1.0.0", galleryId := "pub.b",
         manifest := { name := "b", publisher := "pub", version := ⟨1, 0, 0⟩,
                       displayName := none, extensionDependencies := ["pub.a"] } }] =
      .error "Cannot uninstall extension \x27a\x27. Extension \x27b\x27 depends on this." :=
  ((uninstall_dependents_block_message
    { id := "pub.a-1.0.0", galleryId := "pub.a",
      manifest := { name := "a", publisher := "pub", version := ⟨1, 0, 0⟩,
                    displayName := none, extensionDependencies := [] } }
    []
    [{ id := "pub.a-1.0.0", galleryId := "pub.a",
       manifest := { name := "a", publisher := "pub", version := ⟨1, 0, 0⟩,
                     displayName := none, extensionDependencies := [] } },
     { id := "pub.b-1.0.0", galleryId := "pub.b",
       manifest := { name := "b", publisher := "pub", version := ⟨1, 0, 0⟩,
                     displayName := none, extensionDependencies := ["pub.a"] } }]).2.1)
    { id := "pub.b-1.0.0", galleryId := "pub.b",
      manifest := { name := "b", publisher := "pub", version := ⟨1, 0, 0⟩,
                    displayName := none, extensionDependencies := ["pub.a"] } }
    (by decide)

/-! ## Scanning user extensions (C3) -/

theorem semverCompare_le_zero (a b : SemVer) :
    semverCompare a b ≤ 0 ↔
      (a.major < b.major ∨ (a.major = b.major ∧ (a.minor < b.minor ∨
        (a.minor = b.minor ∧ a.patch ≤ b.patch)))) := by
  unfold semverCompare natCompareInt
  split_ifs <;> omega

theorem versionDescending_total (a b : LocalExtension) :
    versionDescending a b ∨ versionDescending b a := by
  unfold versionDescending semverRcompare
  rw [semverCompare_le_zero, semverCompare_le_zero]
  omega

theorem versionDescending_trans (a b c : LocalExtension) :
    versionDescending a b → versionDescending b c → versionDescending a c := by
  unfold versionDescending semverRcompare
  rw [semverCompare_le_zero, semverCompare_le_zero, semverCompare_le_zero]
  omega

theorem versionDescending_refl (a : LocalExtension) : versionDescending a a := by
  unfold versionDescending semverRcompare
  rw [semverCompare_le_zero]
  omega

theorem insertionSort_head_max (l : List LocalExtension) (r : LocalExtension)
    (hr : (l.insertionSort versionDescending).head? = some r) :
    r ∈ l ∧ ∀ x ∈ l, versionDescending r x := by
  have hperm := List.perm_insertionSort versionDescending l
  have hsorted : List.Sorted versionDescending (l.insertionSort versionDescending) :=
    @List.sorted_insertionSort _ versionDescending _
      ⟨fun a b => versionDescending_total a b⟩
      ⟨fun a b c => versionDescending_trans a b c⟩ l
  cases hs : l.insertionSort versionDescending with
  | nil => rw [hs] at hr; exact absurd hr (by simp)
  | cons r0 t =>
    rw [hs] at hr
    have hr0 : r0 = r := by simpa using hr
    subst hr0
    rw [hs] at hperm hsorted
    refine ⟨hperm.mem_iff.mp (List.mem_cons_self r0 t), fun x hx => ?_⟩
    rcases List.mem_cons.mp (hperm.mem_iff.mpr hx) with hx | hx
    · rw [hx]; exact versionDescending_refl r0
    · exact List.rel_of_sorted_cons hsorted x hx

theorem insertGrouped_keys (key : String) (x : LocalExtension)
    (gs : List (String × List LocalExtension)) :
    (insertGrouped key x gs).map Prod.fst =
      if key ∈ gs.map Prod.fst then gs.map Prod.fst
      else gs.map Prod.fst ++ [key] := by
  induction gs with
  | nil => simp [insertGrouped]
  | cons g gs ih =>
    by_cases hk : g.1 = key
    · simp [insertGrouped, hk, beq_iff_eq]
    · by_cases hmem : key ∈ gs.map Prod.fst <;>
        simp [insertGrouped, hk, beq_iff_eq, ih, hmem, Ne.symm hk]

theorem insertGrouped_nodup (key : String) (x : LocalExtension)
    (gs : List (String × List LocalExtension))
    (h : (gs.map Prod.fst).Nodup) :
    ((insertGrouped key x gs).map Prod.fst).Nodup := by
  rw [insertGrouped_keys]
  split
  · exact h
  · next hmem =>
    rw [List.nodup_append]
    exact ⟨h, List.nodup_singleton key, by simpa using hmem⟩

theorem insertGrouped_members (key : String) (x : LocalExtension)
    (gs : List (String × List LocalExtension)) :
    ∀ g ∈ insertGrouped key x gs, ∀ y ∈ g.2,
      (∃ g0 ∈ gs, g0.1 = g.1 ∧ y ∈ g0.2) ∨ (y = x ∧ g.1 = key) := by
  induction gs with
  | nil =>
    intro g hg y hy
    simp only [insertGrouped, List.mem_singleton] at hg
    subst hg
    simp only [List.mem_singleton] at hy
    exact Or.inr ⟨hy, rfl⟩
  | cons g0 gs ih =>
    intro g hg y hy
    by_cases hk : g0.1 = key
    · simp only [insertGrouped, beq_iff_eq, if_pos hk, List.mem_cons] at hg
      rcases hg with hg | hg
      · subst hg
        simp only [List.mem_append, List.mem_singleton] at hy
        rcases hy with hy | hy
        · exact Or.inl ⟨g0, List.mem_cons_self g0 gs, rfl, hy⟩
        · exact Or.inr ⟨hy, hk⟩
      · exact Or.inl ⟨g, List.mem_cons_of_mem g0 hg, rfl, hy⟩
    · simp only [insertGrouped, beq_iff_eq, if_neg hk, List.mem_cons] at hg
      rcases hg with hg | hg
      · subst hg
        exact Or.inl ⟨g, List.mem_cons_self g gs, rfl, hy⟩
      · rcases ih g hg y hy with ⟨g1, hg1, hkey, hy1⟩ | hr
        · exact Or.inl ⟨g1, List.mem_cons_of_mem g0 hg1, hkey, hy1⟩
        · exact Or.inr hr

theorem insertGrouped_covers (key : String) (x : LocalExtension)
    (gs : List (String × List LocalExtension)) :
    (∃ g ∈ insertGrouped key x gs, g.1 = key ∧ x ∈ g.2)
    ∧ ∀ g0 ∈ gs, ∃ g ∈ insertGrouped key x gs, g.1 = g0.1 ∧ ∀ y ∈ g0.2, y ∈ g.2 := by
  induction gs with
  | nil =>
    refine ⟨⟨(key, [x]), List.mem_singleton.mpr rfl, rfl, List.mem_singleton.mpr rfl⟩, ?_⟩
    intro g0 hg0
    simp at hg0
  | cons g0 gs ih =>
    by_cases hk : g0.1 = key
    · refine ⟨⟨(g0.1, g0.2 ++ [x]), ?_, hk, by simp⟩, ?_⟩
      · simp [insertGrouped, hk, beq_iff_eq]
      · intro g1 hg1
        rcases List.mem_cons.mp hg1 with hg1 | hg1
        · subst hg1
          refine ⟨(g1.1, g1.2 ++ [x]), by simp [insertGrouped, hk, beq_iff_eq], rfl, ?_⟩
          intro y hy
          simp [hy]
        · refine ⟨g1, ?_, rfl, fun y hy => hy⟩
          simp only [insertGrouped, beq_iff_eq, if_pos hk]
          exact List.mem_cons_of_mem _ hg1
    · have hstep : insertGrouped key x (g0 :: gs) = g0 :: insertGrouped key x gs := by
        simp [insertGrouped, hk, beq_iff_eq]
      refine ⟨?_, ?_⟩
      · obtain ⟨g, hg, hgk, hgx⟩ := ih.1
        exact ⟨g, by rw [hstep]; exact List.mem_cons_of_mem g0 hg, hgk, hgx⟩
      · intro g1 hg1
        rcases List.mem_cons.mp hg1 with hg1 | hg1
        · subst hg1
          exact ⟨g1, by rw [hstep]; exact List.mem_cons_self g1 _, rfl, fun y hy => hy⟩
        · obtain ⟨g, hg, hgk, hgy⟩ := ih.2 g1 hg1
          exact ⟨g, by rw [hstep]; exact List.mem_cons_of_mem g0 hg, hgk, hgy⟩

theorem groupFold_nodup (exts : List LocalExtension) :
    ∀ acc : List (String × List LocalExtension), (acc.map Prod.fst).Nodup →
      ((exts.foldl (fun a p => insertGrouped p.galleryId p a) acc).map Prod.fst).Nodup := by
  induction exts with
  | nil => intro acc h; simpa using h
  | cons e exts ih =>
    intro acc h
    exact ih (insertGrouped e.galleryId e acc) (insertGrouped_nodup e.galleryId e acc h)

theorem groupFold_member_key (exts : List LocalExtension) :
    ∀ acc : List (String × List LocalExtension),
      (∀ g ∈ acc, ∀ y ∈ g.2, y.galleryId = g.1) →
      ∀ g ∈ exts.foldl (fun a p => insertGrouped p.galleryId p a) acc,
        ∀ y ∈ g.2, y.galleryId = g.1 := by
  induction exts with
  | nil => intro acc h; simpa using h
  | cons e exts ih =>
    intro acc h
    apply ih
    intro g hg y hy
    rcases insertGrouped_members e.galleryId e acc g hg y hy with ⟨g0, hg0, hkey, hy0⟩ | ⟨hyx, hgk⟩
    · rw [← hkey]; exact h g0 hg0 y hy0
    · rw [hgk, hyx]

theorem groupFold_member_src (exts : List LocalExtension) :
    ∀ acc : List (String × List LocalExtension),
      ∀ g ∈ exts.foldl (fun a p => insertGrouped p.galleryId p a) acc,
        ∀ y ∈ g.2, (∃ g0 ∈ acc, y ∈ g0.2) ∨ y ∈ exts := by
  induction exts with
  | nil =>
    intro acc g hg y hy
    exact Or.inl ⟨g, hg, hy⟩
  | cons e exts ih =>
    intro acc g hg y hy
    rcases ih (insertGrouped e.galleryId e acc) g hg y hy with ⟨g0, hg0, hy0⟩ | hys
    · rcases insertGrouped_members e.galleryId e acc g0 hg0 y hy0 with
        ⟨g1, hg1, _, hy1⟩ | ⟨hyx, _⟩
      · exact Or.inl ⟨g1, hg1, hy1⟩
      · exact Or.inr (by rw [hyx]; exact List.mem_cons_self e exts)
    · exact Or.inr (List.mem_cons_of_mem e hys)

theorem groupFold_preserves (exts : List LocalExtension) :
    ∀ acc : List (String × List LocalExtension), ∀ g0 ∈ acc,
      ∃ g ∈ exts.foldl (fun a p => insertGrouped p.galleryId p a) acc,
        g.1 = g0.1 ∧ ∀ y ∈ g0.2, y ∈ g.2 := by
  induction exts with
  | nil =>
    intro acc g0 hg0
    exact ⟨g0, hg0, rfl, fun y hy => hy⟩
  | cons e exts ih =>
    intro acc g0 hg0
    obtain ⟨g1, hg1, hk1, hy1⟩ := (insertGrouped_covers e.galleryId e acc).2 g0 hg0
    obtain ⟨g, hg, hk, hy⟩ := ih (insertGrouped e.galleryId e acc) g1 hg1
    exact ⟨g, hg, hk.trans hk1, fun y hy0 => hy y (hy1 y hy0)⟩

theorem groupFold_covers (exts : List LocalExtension) :
    ∀ acc : List (String × List LocalExtension), ∀ x ∈ exts,
      ∃ g ∈ exts.foldl (fun a p => insertGrouped p.galleryId p a) acc,
        g.1 = x.galleryId ∧ x ∈ g.2 := by
  induction exts with
  | nil => intro acc x hx; simp at hx
  | cons e exts ih =>
    intro acc x hx
    rcases List.mem_cons.mp hx with hx | hx
    · subst hx
      obtain ⟨g0, hg0, hk0, hx0⟩ := (insertGrouped_covers x.galleryId x acc).1
      obtain ⟨g, hg, hk, hy⟩ := groupFold_preserves exts
        (insertGrouped x.galleryId x acc) g0 hg0
      exact ⟨g, hg, hk.trans hk0, hy x hx0⟩
    · exact ih (insertGrouped e.galleryId e acc) x hx

theorem filterMap_sortHead_pairwise_ne (gs : List (String × List LocalExtension))
    (hnd : (gs.map Prod.fst).Nodup)
    (hkey : ∀ g ∈ gs, ∀ y ∈ g.2, y.galleryId = g.1) :
    (gs.filterMap (fun g => (g.2.insertionSort versionDescending).head?)).Pairwise
      (fun a b => a.galleryId ≠ b.galleryId) := by
  induction gs with
  | nil => simp
  | cons g gs ih =>
    rw [List.map_cons, List.nodup_cons] at hnd
    have htail := ih hnd.2 (fun g1 hg1 => hkey g1 (List.mem_cons_of_mem g hg1))
    rw [List.filterMap_cons]
    cases hh : (g.2.insertionSort versionDescending).head? with
    | none => exact htail
    | some r =>
      refine List.Pairwise.cons ?_ htail
      intro b hb
      obtain ⟨g1, hg1, hb1⟩ := List.mem_filterMap.mp hb
      have hrid : r.galleryId = g.1 :=
        hkey g (List.mem_cons_self g gs) r (insertionSort_head_max g.2 r hh).1
      have hbid : b.galleryId = g1.1 :=
        hkey g1 (List.mem_cons_of_mem g hg1) b (insertionSort_head_max g1.2 b hb1).1
      rw [hrid, hbid]
      intro heq
      exact hnd.1 (heq ▸ List.mem_map.mpr ⟨g1, hg1, rfl⟩)

/-- Claim C3: scanning yields at most one record per canonical identifier —
the returned records have pairwise distinct identifiers, every returned
record is one of the scanned records (nothing is deleted from disk here,
duplicates are merely dropped from the result), and every scanned record is
represented by a returned record with the same identifier and a version at
least as high. -/
theorem scan_user_extensions_dedup_highest (extensions : List LocalExtension) :
    ((scanUserExtensions extensions).Pairwise (fun a b => a.galleryId ≠ b.galleryId))
    ∧ (∀ r ∈ scanUserExtensions extensions, r ∈ extensions)
    ∧ (∀ x ∈ extensions, ∃ r ∈ scanUserExtensions extensions,
        r.galleryId = x.galleryId ∧
          semverCompare x.manifest.version r.manifest.version ≤ 0) := by
  have hnd : ((groupByGalleryId extensions).map Prod.fst).Nodup :=
    groupFold_nodup extensions [] (by simp)
  have hkey : ∀ g ∈ groupByGalleryId extensions, ∀ y ∈ g.2, y.galleryId = g.1 :=
    groupFold_member_key extensions [] (by simp)
  refine ⟨filterMap_sortHead_pairwise_ne _ hnd hkey, fun r hr => ?_, fun x hx => ?_⟩
  · obtain ⟨g, hg, hr1⟩ := List.mem_filterMap.mp hr
    have hmem := (insertionSort_head_max g.2 r hr1).1
    rcases groupFold_member_src extensions [] g hg r hmem with ⟨g0, hg0, _⟩ | hsrc
    · simp at hg0
    · exact hsrc
  · obtain ⟨g, hg, hgk, hgx⟩ := groupFold_covers extensions [] x hx
    cases hh : (g.2.insertionSort versionDescending).head? with
    | none =>
      rw [List.head?_eq_none_iff] at hh
      have hperm := List.perm_insertionSort versionDescending g.2
      rw [hh] at hperm
      exact absurd (hperm.symm.mem_iff.mp hgx) (by simp)
    | some r =>
      have hmax := insertionSort_head_max g.2 r hh
      refine ⟨r, List.mem_filterMap.mpr ⟨g, hg, hh⟩, ?_, hmax.2 x hgx⟩
      rw [hkey g hg r hmax.1, hgk]

theorem scan_user_extensions_dedup_highest_witness :
    ∃ r ∈ scanUserExtensions
        [{ id := "p.x-1.0.0", galleryId := "p.x",
           manifest := { name := "x", publisher := "p", version := ⟨1, 0, 0⟩,
                         displayName := none, extensionDependencies := [] } },
         { id := "p.x-2.0.0", galleryId := "p.x",
           manifest := { name := "x", publisher := "p", version := ⟨2, 0, 0⟩,
                         displayName := none, extensionDependencies := [] } }],
      r.galleryId =
        ({ id := "p.x-1.0.0", galleryId := "p.x",
           manifest := { name := "x", publisher := "p", version := ⟨1, 0, 0⟩,
                         displayName := none,
                         extensionDependencies := [] } } : LocalExtension).galleryId ∧
        semverCompare
          ({ id := "p.x-1.0.0", galleryId := "p.x",
             manifest := { name := "x", publisher := "p", version := ⟨1, 0, 0⟩,
                           displayName := none,
                           extensionDependencies := [] } } : LocalExtension).manifest.version
          r.manifest.version ≤ 0 :=
  ((scan_user_extensions_dedup_highest
    [{ id := "p.x-1.0.0", galleryId := "p.x",
       manifest := { name := "x", publisher := "p", version := ⟨1, 0, 0⟩,
                     displayName := none, extensionDependencies := [] } },
     { id := "p.x-2.0.0", galleryId := "p.x",
       manifest := { name := "x", publisher := "p", version := ⟨2, 0, 0⟩,
                     displayName := none, extensionDependencies := [] } }]).2.2)
    { id := "p.x-1.0.0", galleryId := "p.x",
      manifest := { name := "x", publisher := "p", version := ⟨1, 0, 0⟩,
                    displayName := none, extensionDependencies := [] } }
    (by decide)

end ExtensionManagement
